import Mathlib

/-!
Verification development for the procedural keyboard-sound engine of the
studio-typo website (src/js/audio/AudioManager.js).

The engine is embedded shallowly:

* JS numbers are modelled as exact rationals (ℚ); every numeric literal of
  the source (0.0015, 1.02, 3.5, ...) is exact in ℚ.
* `Math.random()` is modelled as an ambient stream `r : Nat → ℚ`; successive
  calls read successive indices, in the JS evaluation order of the source
  (argument lists left to right, `forEach` in list order).
* The Web Audio graph nodes built by a voice are recorded in a
  `VoiceInstance` value: the scheduled parameters of the exciter source,
  its envelope, the per-mode bandpass/gain stages and the per-event master
  gain, exactly as `triggerModalImpact` sets them.
* `setTimeout` / `clearTimeout` are modelled by a host registry of pending
  timers `(id, delay)` carried in the manager state; `setTimeout` appends a
  fresh id and returns it, `clearTimeout id` removes that id, and firing a
  timer is only possible while its id is still registered.  Browser timer
  handles are never 0-falsy JS values, so the nullable `typingLoopTimeout`
  field is an `Option Nat`.
* Methods that can raise return `Except Unit _`; the `try/catch` of
  `stopTypingLoop` is the explicit `match` on the throwing primitive.
-/

namespace TypoAudio

/-- `rand(min, max)` of AudioManager.js: `min + Math.random() * (max - min)`,
with the `Math.random()` draw passed in as `x`. -/
def rand (mn mx x : ℚ) : ℚ :=
  mn + x * (mx - mn)

/-- One resonant mode of an event descriptor: the `{ freq, Q, gain }` object
literals of `playModalKeypress` (frequency already carries its random
multiplier, exactly as in the source). -/
structure Mode where
  freq : ℚ
  Q : ℚ
  gain : ℚ
deriving DecidableEq

/-- The `config` argument of `triggerModalImpact`. -/
structure ImpactConfig where
  duration : ℚ
  modes : List Mode
  masterGain : ℚ
deriving DecidableEq

/-- One bandpass/gain stage built by the `config.modes.forEach` loop of
`triggerModalImpact`: `filter.frequency.value`, `filter.Q.value` and
`modeGain.gain.value = mode.gain * rand(0.85, 1.15)`. -/
structure ModeStage where
  freq : ℚ
  Q : ℚ
  modeGain : ℚ
deriving DecidableEq

/-- The signal chain one `triggerModalImpact` call allocates and schedules. -/
structure VoiceInstance where
  startTime : ℚ
  duration : ℚ
  masterGain : ℚ
  gainNodeValue : ℚ
  modeStages : List ModeStage
  exciterStart : ℚ
  exciterStop : ℚ
deriving DecidableEq

/-- The `forEach` over `config.modes` in `triggerModalImpact`: stage `j` of
the list draws `rand(0.85, 1.15)` with the `Math.random()` value `r (i + j)`. -/
def mkModeStages (r : Nat → ℚ) (i : Nat) : List Mode → List ModeStage
  | [] => []
  | m :: ms =>
    { freq := m.freq, Q := m.Q, modeGain := m.gain * rand 0.85 1.15 (r i) }
      :: mkModeStages r (i + 1) ms

/-- `triggerModalImpact(startTime, config)`. `gi` is the stream position of
the first `Math.random()` drawn inside the call (the gain multipliers).
The exciter is scheduled with `exciter.start(startTime)` and
`exciter.stop(startTime + config.duration + 0.15)`; the per-event gain node
value is `config.masterGain * CONFIG.audio.keyPressVolume`. -/
def triggerModalImpact (r : Nat → ℚ) (gi : Nat) (startTime : ℚ)
    (config : ImpactConfig) (keyPressVolume : ℚ) : VoiceInstance :=
  { startTime := startTime
    duration := config.duration
    masterGain := config.masterGain
    gainNodeValue := config.masterGain * keyPressVolume
    modeStages := mkModeStages r gi config.modes
    exciterStart := startTime
    exciterStop := startTime + config.duration + 0.15 }

/-- Event 1 mode table (click mechanism); frequency draws at stream
positions `i`, `i+1`, `i+2`. -/
def clickModes (r : Nat → ℚ) (i : Nat) : List Mode :=
  [ { freq := 1100 * rand 0.97 1.03 (r i), Q := 8, gain := 0.5 },
    { freq := 2200 * rand 0.97 1.03 (r (i + 1)), Q := 5, gain := 0.25 },
    { freq := 3800 * rand 0.97 1.03 (r (i + 2)), Q := 3, gain := 0.1 } ]

/-- Event 2 mode table (bottom-out impact). -/
def impactModes (r : Nat → ℚ) (i : Nat) : List Mode :=
  [ { freq := 160 * rand 0.95 1.05 (r i), Q := 28, gain := 0.7 },
    { freq := 280 * rand 0.95 1.05 (r (i + 1)), Q := 22, gain := 0.5 },
    { freq := 520 * rand 0.97 1.03 (r (i + 2)), Q := 18, gain := 1.0 },
    { freq := 780 * rand 0.97 1.03 (r (i + 3)), Q := 14, gain := 0.6 },
    { freq := 1150 * rand 0.97 1.03 (r (i + 4)), Q := 10, gain := 0.35 },
    { freq := 1800 * rand 0.97 1.03 (r (i + 5)), Q := 6, gain := 0.2 },
    { freq := 2900 * rand 0.97 1.03 (r (i + 6)), Q := 4, gain := 0.1 } ]

/-- Event 3 mode table (upstroke return). -/
def upstrokeModes (r : Nat → ℚ) (i : Nat) : List Mode :=
  [ { freq := 1250 * rand 0.97 1.03 (r i), Q := 7, gain := 0.3 },
    { freq := 2000 * rand 0.97 1.03 (r (i + 1)), Q := 5, gain := 0.15 },
    { freq := 200 * rand 0.95 1.05 (r (i + 2)), Q := 15, gain := 0.2 } ]

/-- The three `triggerModalImpact` calls of `playModalKeypress` at captured
time `t`.  `Math.random()` call order in the source: event-1 frequency draws
(positions 0..2), event-1 gain draws inside the first call (3..5), event-2
frequency draws (6..12), event-2 gain draws (13..19), event-3 frequency
draws (20..22), event-3 gain draws (23..25). -/
def playModalKeypressVoices (r : Nat → ℚ) (t keyPressVolume : ℚ) :
    List VoiceInstance :=
  [ triggerModalImpact r 3 t
      { duration := 0.002, modes := clickModes r 0, masterGain := 0.4 }
      keyPressVolume,
    triggerModalImpact r 13 (t + 0.0015)
      { duration := 0.004, modes := impactModes r 6, masterGain := 0.8 }
      keyPressVolume,
    triggerModalImpact r 23 (t + 0.055)
      { duration := 0.0015, modes := upstrokeModes r 20, masterGain := 0.25 }
      keyPressVolume ]

/-- Value of `lastOut` in `createBrownNoiseBuffer` after `n` loop
iterations: `lastOut` starts at 0 and iteration `n` performs
`lastOut = (lastOut + 0.02 * white_n) / 1.02`.  (This is also the state
recurrence the specification describes for the leaky integrator.) -/
def lastOutAfter (white : Nat → ℚ) : Nat → ℚ
  | 0 => 0
  | n + 1 => (lastOutAfter white n + 0.02 * white n) / 1.02

/-- The generation loop of `createBrownNoiseBuffer`: starting at sample
index `i` with integrator state `lastOut`, produce `fuel` samples, each one
`lastOut * 3.5` after the integrator update. -/
def brownNoiseAux (white : Nat → ℚ) : Nat → Nat → ℚ → List ℚ
  | _, 0, _ => []
  | i, fuel + 1, lastOut =>
    ((lastOut + 0.02 * white i) / 1.02) * 3.5
      :: brownNoiseAux white (i + 1) fuel ((lastOut + 0.02 * white i) / 1.02)

/-- `createBrownNoiseBuffer()`: a single-channel buffer of
`Math.floor(sampleRate * 0.05)` samples filled by the integrator loop with
`lastOut` initialised to 0; `white` is the stream of `Math.random()*2 - 1`
values. -/
def createBrownNoiseBuffer (white : Nat → ℚ) (sampleRate : ℚ) : List ℚ :=
  brownNoiseAux white 0 (Nat.floor (sampleRate * 0.05)) 0

/-- An `AudioBufferSourceNode` as far as the engine observes it: whether
`stop()` has already been called on it. -/
structure SourceNode where
  stopped : Bool
deriving DecidableEq

/-- `source.stop()` on a buffer source node: throws (`InvalidStateError`)
when the node was already stopped, which is exactly the case the
`try/catch` of `stopTypingLoop` absorbs. -/
def sourceStop (src : SourceNode) : Except Unit SourceNode :=
  if src.stopped then .error () else .ok { stopped := true }

/-- The state of one `AudioManager` instance together with the host
environment it drives: the constructor fields of the class, the
`CONFIG.audio.keyPressVolume` constant it reads, the host's registry of
pending `setTimeout` timers `(id, delay-ms)`, the next fresh timer id, the
cursor into the stream of `Math.random()` delay draws, and a counter of
choreographer (`playModalKeypress`) invocations made by the typing loop. -/
structure AMState where
  enabled : Bool
  initialized : Bool
  context : Option Bool
  brownNoiseBuffer : Option Unit
  typingLoopBuffer : Option Unit
  keyPressBuffer : Option Unit
  typingLoopSource : Option SourceNode
  typingLoopTimeout : Option Nat
  keyPressVolume : ℚ
  timers : List (Nat × ℚ)
  nextId : Nat
  rIdx : Nat
  firings : Nat
deriving DecidableEq

/-- `playModalKeypress()` on a manager state: a no-op unless both
`this.context` and `this.brownNoiseBuffer` are set, otherwise the three
`triggerModalImpact` calls at `t = context.currentTime = now`. -/
def playModalKeypress (r : Nat → ℚ) (s : AMState) (now : ℚ) :
    List VoiceInstance :=
  if s.context.isSome && s.brownNoiseBuffer.isSome then
    playModalKeypressVoices r now s.keyPressVolume
  else []

/-- Observable effect of one `playKeyPress()` call. -/
inductive KeyPressAction where
  | noAction
  | sample (rate volume : ℚ)
  | synthetic (voices : List VoiceInstance)
deriving DecidableEq

/-- `playBuffer(buffer)`: a one-shot source with
`playbackRate = 0.95 + Math.random() * 0.1` through a gain node fixed at
`CONFIG.audio.keyPressVolume` (the self-disposing `onended` hook is not
observable in the state). -/
def playBuffer (r : Nat → ℚ) (s : AMState) : KeyPressAction :=
  .sample (0.95 + r 0 * 0.1) s.keyPressVolume

/-- `playKeyPress()`: early return when disabled or uninitialized, the
sample path when `this.keyPressBuffer` is set, the synthetic choreography
otherwise.  No field of the manager is mutated on any path. -/
def playKeyPress (r : Nat → ℚ) (s : AMState) (now : ℚ) :
    AMState × KeyPressAction :=
  if !s.enabled || !s.initialized then (s, .noAction)
  else
    match s.keyPressBuffer with
    | some _ => (s, playBuffer r s)
    | none => (s, .synthetic (playModalKeypress r s now))

/-- `startSyntheticTypingLoop()`: `this.typingLoopTimeout =
setTimeout(scheduleNextKey, 500)` — registers a fresh host timer with a
500 ms delay and stores its handle (any previously stored handle is
overwritten, its timer left registered). -/
def startSyntheticTypingLoop (s : AMState) : AMState :=
  { s with typingLoopTimeout := some s.nextId
           timers := (s.nextId, 500) :: s.timers
           nextId := s.nextId + 1 }

/-- Which branch `startTypingLoop()` took. -/
inductive LoopStartEffect where
  | noEffect
  | bufferSource
  | syntheticTimer
deriving DecidableEq

/-- `startTypingLoop()`: early return when disabled or uninitialized; the
looping-buffer path creates and starts a fresh source node; otherwise the
synthetic loop is started. -/
def startTypingLoop (s : AMState) : AMState × LoopStartEffect :=
  if !s.enabled || !s.initialized then (s, .noEffect)
  else
    match s.typingLoopBuffer with
    | some _ => ({ s with typingLoopSource := some { stopped := false } },
                 .bufferSource)
    | none => (startSyntheticTypingLoop s, .syntheticTimer)

/-- `stopTypingLoop()`: if a source exists, `try { stop(); disconnect() }
catch { }` (the `match` on `sourceStop` is the try/catch — both outcomes
continue) and the field is nulled; then, if a timeout handle exists,
`clearTimeout` removes that timer from the host registry and the handle is
nulled.  The method itself never propagates an exception. -/
def stopTypingLoop (s : AMState) : Except Unit AMState :=
  let s1 :=
    match s.typingLoopSource with
    | some src =>
      match sourceStop src with
      | .ok _ => { s with typingLoopSource := none }
      | .error _ => { s with typingLoopSource := none }
    | none => s
  match s1.typingLoopTimeout with
  | some id => .ok { s1 with typingLoopTimeout := none
                             timers := s1.timers.filter (fun p => p.1 != id) }
  | none => .ok s1

/-- The host fires the registered timer `id`, running `scheduleNextKey`:
nothing happens if `id` is no longer registered (it was cleared); otherwise
the timer is consumed and the callback runs — if `!this.enabled` it nulls
the handle and returns, else it invokes `playModalKeypress()` once (counted
in `firings`; its 26 voice randomisation draws come from the separate voice
stream), draws `nextDelay = 100 + Math.random() * 150` at the delay-stream
cursor, and registers the next timer, storing its handle. -/
def fireTimer (r : Nat → ℚ) (s : AMState) (id : Nat) : AMState :=
  if s.timers.any (fun p => p.1 == id) then
    let s1 := { s with timers := s.timers.filter (fun p => p.1 != id) }
    if s1.enabled then
      { s1 with firings := s1.firings + 1
                typingLoopTimeout := some s1.nextId
                timers := (s1.nextId, 100 + r s1.rIdx * 150) :: s1.timers
                rIdx := s1.rIdx + 1
                nextId := s1.nextId + 1 }
    else { s1 with typingLoopTimeout := none }
  else s

/-- A sequence of host timer firings applied in order. -/
def applyFires (r : Nat → ℚ) (fs : List Nat) (s : AMState) : AMState :=
  fs.foldl (fireTimer r) s

/-- `dispose()`: `stopTypingLoop()` (whose exceptions, were there any,
would propagate), then `if (this.context) this.context.close()` — `close`
returns a promise and never raises synchronously; the context is marked
closed. -/
def dispose (s : AMState) : Except Unit AMState :=
  match stopTypingLoop s with
  | .error e => .error e
  | .ok s1 =>
    match s1.context with
    | some _ => .ok { s1 with context := some false }
    | none => .ok s1

/-- The single-chain discipline the specification's LoopState describes:
either no timer is pending, or exactly one is and the stored handle is its
id. -/
def loopInv (s : AMState) : Prop :=
  s.timers = [] ∨
    ∃ id d, s.typingLoopTimeout = some id ∧ s.timers = [(id, d)]

/-- A freshly constructed, initialized manager (constructor fields of
`AudioManager`, after `init()` created the context and the noise buffer,
with no audio assets loaded), in a host with no pending timers. -/
def sInit : AMState :=
  { enabled := true
    initialized := true
    context := some true
    brownNoiseBuffer := some ()
    typingLoopBuffer := none
    keyPressBuffer := none
    typingLoopSource := none
    typingLoopTimeout := none
    keyPressVolume := 1
    timers := []
    nextId := 0
    rIdx := 0
    firings := 0 }

/-- One row of the canonical mode tables: literal base frequency, the
documented randomisation multiplier bounds for it, and the literal base
gain (whose multiplier bounds are always 0.85–1.15). -/
structure BaseMode where
  freq : ℚ
  lo : ℚ
  hi : ℚ
  gain : ℚ

/-- A generated mode stage lies within the documented randomisation bounds
of a canonical table row: frequency in `[freq·lo, freq·hi]` and gain in
`[gain·0.85, gain·1.15]`. -/
def modeOk (m : ModeStage) (b : BaseMode) : Prop :=
  b.freq * b.lo ≤ m.freq ∧ m.freq ≤ b.freq * b.hi
    ∧ b.gain * 0.85 ≤ m.modeGain ∧ m.modeGain ≤ b.gain * 1.15

/-- The canonical literal mode tables of the three events, with ±3%
(0.97–1.03) bounds on body frequencies and ±5% (0.95–1.05) bounds on the
case/low-frequency modes (160, 280 and 200 Hz). -/
def baseTable : List (List BaseMode) :=
  [ [ ⟨1100, 0.97, 1.03, 0.5⟩, ⟨2200, 0.97, 1.03, 0.25⟩,
      ⟨3800, 0.97, 1.03, 0.1⟩ ],
    [ ⟨160, 0.95, 1.05, 0.7⟩, ⟨280, 0.95, 1.05, 0.5⟩,
      ⟨520, 0.97, 1.03, 1.0⟩, ⟨780, 0.97, 1.03, 0.6⟩,
      ⟨1150, 0.97, 1.03, 0.35⟩, ⟨1800, 0.97, 1.03, 0.2⟩,
      ⟨2900, 0.97, 1.03, 0.1⟩ ],
    [ ⟨1250, 0.97, 1.03, 0.3⟩, ⟨2000, 0.97, 1.03, 0.15⟩,
      ⟨200, 0.95, 1.05, 0.2⟩ ] ]

lemma rand_lower (mn mx x : ℚ) (hx0 : 0 ≤ x) (h : mn ≤ mx) :
    mn ≤ rand mn mx x := by
  unfold rand
  nlinarith

lemma rand_upper (mn mx x : ℚ) (hx1 : x < 1) (h : mn ≤ mx) :
    rand mn mx x ≤ mx := by
  unfold rand
  nlinarith

lemma modeOk_intro (f g Q x y lo hi : ℚ) (hf : 0 ≤ f) (hg : 0 ≤ g)
    (hx0 : 0 ≤ x) (hx1 : x < 1) (hy0 : 0 ≤ y) (hy1 : y < 1)
    (hlh : lo ≤ hi) :
    modeOk { freq := f * rand lo hi x, Q := Q,
             modeGain := g * rand 0.85 1.15 y }
           { freq := f, lo := lo, hi := hi, gain := g } := by
  refine ⟨?_, ?_, ?_, ?_⟩
  · exact mul_le_mul_of_nonneg_left (rand_lower lo hi x hx0 hlh) hf
  · exact mul_le_mul_of_nonneg_left (rand_upper lo hi x hx1 hlh) hf
  · exact mul_le_mul_of_nonneg_left
      (rand_lower 0.85 1.15 y hy0 (by norm_num)) hg
  · exact mul_le_mul_of_nonneg_left
      (rand_upper 0.85 1.15 y hy1 (by norm_num)) hg

/-- Claim C1: each synthetic keypress triggered at captured time `now`
constructs exactly three voices, starting at `now`, `now + 0.0015` and
`now + 0.055`, with durations 0.002, 0.004 and 0.0015 s, per-event master
gains 0.4, 0.8 and 0.25, and every voice's exciter stop time is its start
time plus its duration plus 0.15 — in particular at least start plus
duration. -/
theorem keypress_choreography (r : Nat → ℚ) (s : AMState) (now : ℚ)
    (hc : s.context.isSome = true) (hb : s.brownNoiseBuffer.isSome = true) :
    (playModalKeypress r s now).length = 3
    ∧ (playModalKeypress r s now).map VoiceInstance.startTime
        = [now, now + 0.0015, now + 0.055]
    ∧ (playModalKeypress r s now).map VoiceInstance.duration
        = [0.002, 0.004, 0.0015]
    ∧ (playModalKeypress r s now).map VoiceInstance.masterGain
        = [0.4, 0.8, 0.25]
    ∧ ∀ v ∈ playModalKeypress r s now,
        v.exciterStop = v.startTime + v.duration + 0.15
        ∧ v.startTime + v.duration ≤ v.exciterStop := by
  have hpk : playModalKeypress r s now
      = playModalKeypressVoices r now s.keyPressVolume := by
    simp [playModalKeypress, hc, hb]
  rw [hpk]
  refine ⟨rfl, rfl, rfl, rfl, ?_⟩
  intro v hv
  simp only [playModalKeypressVoices, triggerModalImpact, List.mem_cons,
    List.not_mem_nil, or_false] at hv
  rcases hv with h | h | h <;> subst h <;> exact ⟨rfl, by simp; linarith⟩

/-- Witness for C1 at a concrete initialized state, trigger time 0 and the
all-zero random stream. -/
theorem keypress_choreography_witness :
    (playModalKeypress (fun _ => 0) sInit 0).length = 3
    ∧ (playModalKeypress (fun _ => 0) sInit 0).map VoiceInstance.startTime
        = [0, 0 + 0.0015, 0 + 0.055]
    ∧ (playModalKeypress (fun _ => 0) sInit 0).map VoiceInstance.duration
        = [0.002, 0.004, 0.0015]
    ∧ (playModalKeypress (fun _ => 0) sInit 0).map VoiceInstance.masterGain
        = [0.4, 0.8, 0.25]
    ∧ ∀ v ∈ playModalKeypress (fun _ => 0) sInit 0,
        v.exciterStop = v.startTime + v.duration + 0.15
        ∧ v.startTime + v.duration ≤ v.exciterStop :=
  keypress_choreography (fun _ => 0) sInit 0 rfl rfl

set_option maxHeartbeats 1600000 in
/-- Claim C3: with every ambient random draw in [0, 1), each generated
mode's centre frequency lies within the documented multiplier bounds of its
literal base frequency (±3% body, ±5% case/low) and each generated mode
gain lies within ±15% of its literal base gain, for all three canonical
events. -/
theorem mode_randomization_bounds (r : Nat → ℚ) (t kpv : ℚ)
    (hr : ∀ n, 0 ≤ r n ∧ r n < 1) :
    List.Forall₂ (List.Forall₂ modeOk)
      ((playModalKeypressVoices r t kpv).map VoiceInstance.modeStages)
      baseTable := by
  simp only [playModalKeypressVoices, triggerModalImpact, clickModes,
    impactModes, upstrokeModes, mkModeStages, baseTable, List.map]
  refine .cons (.cons ?_ (.cons ?_ (.cons ?_ .nil)))
    (.cons (.cons ?_ (.cons ?_ (.cons ?_ (.cons ?_ (.cons ?_ (.cons ?_
      (.cons ?_ .nil)))))))
    (.cons (.cons ?_ (.cons ?_ (.cons ?_ .nil))) .nil)) <;>
  · apply modeOk_intro <;>
      first
        | exact (hr _).1
        | exact (hr _).2
        | norm_num

/-- Witness for C3 with every random draw fixed at 1/2. -/
theorem mode_randomization_bounds_witness :
    List.Forall₂ (List.Forall₂ modeOk)
      ((playModalKeypressVoices (fun _ => (1 : ℚ)/2) 0 1).map
        VoiceInstance.modeStages)
      baseTable :=
  mode_randomization_bounds (fun _ => (1 : ℚ)/2) 0 1 (fun _ => by norm_num)

lemma brownNoiseAux_length (white : Nat → ℚ) (fuel : Nat) :
    ∀ (i : Nat) (st : ℚ), (brownNoiseAux white i fuel st).length = fuel := by
  induction fuel with
  | zero => intro i st; rfl
  | succ n ih => intro i st; simp [brownNoiseAux, ih]

lemma brownNoiseAux_eq_map (white : Nat → ℚ) (fuel : Nat) :
    ∀ i : Nat, brownNoiseAux white i fuel (lastOutAfter white i)
      = (List.range fuel).map
          (fun j => lastOutAfter white (i + j + 1) * 3.5) := by
  induction fuel with
  | zero => intro i; rfl
  | succ n ih =>
    intro i
    have hstep : brownNoiseAux white i (n + 1) (lastOutAfter white i)
        = lastOutAfter white (i + 1) * 3.5
          :: brownNoiseAux white (i + 1) n (lastOutAfter white (i + 1)) := rfl
    rw [hstep, ih (i + 1), List.range_succ_eq_map, List.map_cons,
      List.map_map]
    refine congrArg₂ List.cons (by norm_num) ?_
    refine List.map_congr_left ?_
    intro j _
    have hidx : i + 1 + j + 1 = i + Nat.succ j + 1 := by omega
    simp only [Function.comp_apply, hidx]

lemma createBrownNoiseBuffer_eq_map (white : Nat → ℚ) (sr : ℚ) :
    createBrownNoiseBuffer white sr
      = (List.range (Nat.floor (sr * 0.05))).map
          (fun j => lastOutAfter white (j + 1) * 3.5) := by
  have h := brownNoiseAux_eq_map white (Nat.floor (sr * 0.05)) 0
  simpa [createBrownNoiseBuffer, lastOutAfter] using h

/-- Claim C2 counterexample: with every white draw equal to 1 and sample
rate 100, the first generated sample is `(0.02/1.02) · 3.5 = 7/102`, but
the claim's `state_0 · 3.5` (with `state_0 = 0`) is 0 — the buffer's sample
`i` is the state *after* iteration `i`, not before it. -/
theorem brown_sample_indexing_cex :
    (createBrownNoiseBuffer (fun _ => 1) 100).get? 0 = some (7 / 102)
    ∧ lastOutAfter (fun _ => 1) 0 * 3.5 = 0
    ∧ ((7 : ℚ) / 102) ≠ 0 := by
  refine ⟨?_, by simp [lastOutAfter], by norm_num⟩
  rw [createBrownNoiseBuffer_eq_map]
  have hfl : Nat.floor ((100 : ℚ) * 0.05) = 5 := by norm_num
  rw [hfl]
  simp only [List.get?_map, List.get?_range (by norm_num : 0 < 5)]
  norm_num [lastOutAfter]

/-- Claim C2 (amended): the buffer has `floor(sampleRate · 0.05)` samples
and sample `i` equals `state_{i+1} · 3.5`, where `state_0 = 0` and
`state_{n+1} = (state_n + 0.02 · white_n) / 1.02` — i.e. the state after
processing sample `i`, not `state_i` as the claim indexes it. -/
theorem brown_buffer_samples (white : Nat → ℚ) (sr : ℚ) :
    (createBrownNoiseBuffer white sr).length = Nat.floor (sr * 0.05)
    ∧ ∀ i, i < (createBrownNoiseBuffer white sr).length →
        (createBrownNoiseBuffer white sr).get? i
          = some (lastOutAfter white (i + 1) * 3.5) := by
  have hlen : (createBrownNoiseBuffer white sr).length
      = Nat.floor (sr * 0.05) :=
    brownNoiseAux_length white (Nat.floor (sr * 0.05)) 0 0
  refine ⟨hlen, ?_⟩
  intro i hi
  rw [hlen] at hi
  rw [createBrownNoiseBuffer_eq_map, List.get?_map, List.get?_range hi]
  rfl

/-- Witness for the amended C2 at white ≡ 1, sample rate 100, sample 0. -/
theorem brown_buffer_samples_witness :
    (createBrownNoiseBuffer (fun _ => 1) 100).get? 0
      = some (lastOutAfter (fun _ => 1) (0 + 1) * 3.5) :=
  (brown_buffer_samples (fun _ => 1) 100).2 0
    (by rw [(brown_buffer_samples (fun _ => 1) 100).1]; norm_num)

lemma lastOutAfter_abs_le_one (white : Nat → ℚ)
    (hw : ∀ n, -1 ≤ white n ∧ white n ≤ 1) :
    ∀ n, |lastOutAfter white n| ≤ 1 := by
  intro n
  induction n with
  | zero => simp [lastOutAfter]
  | succ k ih =>
    have h1 := (hw k).1
    have h2 := (hw k).2
    have hs := abs_le.mp ih
    rw [lastOutAfter, abs_div, abs_of_pos (by norm_num : (0:ℚ) < 1.02),
      div_le_one (by norm_num : (0:ℚ) < 1.02), abs_le]
    constructor <;> nlinarith [hs.1, hs.2]

/-- Claim C7: whenever every white-noise draw lies in [-1, 1], the
integrator state of the noise generator never exceeds 1 in absolute value,
so every sample of the generated buffer lies in [-3.5, 3.5]. -/
theorem brown_noise_bounded (white : Nat → ℚ) (sr : ℚ)
    (hw : ∀ n, -1 ≤ white n ∧ white n ≤ 1) :
    (∀ n, |lastOutAfter white n| ≤ 1)
    ∧ ∀ i x, (createBrownNoiseBuffer white sr).get? i = some x →
        -3.5 ≤ x ∧ x ≤ 3.5 := by
  refine ⟨lastOutAfter_abs_le_one white hw, ?_⟩
  intro i x hx
  rw [createBrownNoiseBuffer_eq_map, List.get?_map] at hx
  cases hri : (List.range (Nat.floor (sr * 0.05))).get? i with
  | none => rw [hri] at hx; simp at hx
  | some j =>
    rw [hri] at hx
    simp only [Option.map_some', Option.some.injEq] at hx
    have hb := abs_le.mp (lastOutAfter_abs_le_one white hw (j + 1))
    rw [← hx]
    constructor <;> nlinarith [hb.1, hb.2]

/-- Witness for C7 at white ≡ 1, sample rate 100, sample 0. -/
theorem brown_noise_bounded_witness :
    -3.5 ≤ lastOutAfter (fun _ => 1) (0 + 1) * 3.5
    ∧ lastOutAfter (fun _ => 1) (0 + 1) * 3.5 ≤ 3.5 :=
  (brown_noise_bounded (fun _ => 1) 100 (fun _ => by norm_num)).2 0
    (lastOutAfter (fun _ => 1) (0 + 1) * 3.5)
    (by
      rw [createBrownNoiseBuffer_eq_map]
      have hfl : Nat.floor ((100 : ℚ) * 0.05) = 5 := by norm_num
      rw [hfl, List.get?_map, List.get?_range (by norm_num : 0 < 5)]
      rfl)

lemma stopTypingLoop_eq (s : AMState) :
    stopTypingLoop s
      = .ok { s with
          typingLoopSource := none
          typingLoopTimeout := none
          timers := match s.typingLoopTimeout with
                    | some id => s.timers.filter (fun p => p.1 != id)
                    | none => s.timers } := by
  obtain ⟨en, ini, ctx, bnb, tlb, kpb, src, tout, kpv, tms, nid, ridx, fir⟩ := s
  rcases src with _ | ⟨⟨b⟩⟩
  · rcases tout with _ | id <;> simp [stopTypingLoop]
  · cases b <;> rcases tout with _ | id <;> simp [stopTypingLoop, sourceStop]

lemma stop_timers_nil (s s' : AMState) (hinv : loopInv s)
    (h : stopTypingLoop s = .ok s') : s'.timers = [] := by
  rw [stopTypingLoop_eq] at h
  obtain rfl := (Except.ok.inj h).symm
  rcases hinv with h0 | ⟨id₀, d₀, hh, ht⟩
  · cases htout : s.typingLoopTimeout <;> simp [htout, h0]
  · simp [hh, ht]

lemma stop_firings (s s' : AMState) (h : stopTypingLoop s = .ok s') :
    s'.firings = s.firings := by
  rw [stopTypingLoop_eq] at h
  obtain rfl := (Except.ok.inj h).symm
  rfl

lemma fireTimer_not_mem (r : Nat → ℚ) (s : AMState) (id : Nat)
    (h : s.timers.any (fun p => p.1 == id) = false) :
    fireTimer r s id = s := by
  simp [fireTimer, h]

lemma fireTimer_nil (r : Nat → ℚ) (s : AMState) (id : Nat)
    (h : s.timers = []) : fireTimer r s id = s :=
  fireTimer_not_mem r s id (by simp [h])

lemma fireTimer_mem_enabled (r : Nat → ℚ) (s : AMState) (id : Nat)
    (h : s.timers.any (fun p => p.1 == id) = true) (he : s.enabled = true) :
    fireTimer r s id
      = { s with firings := s.firings + 1
                 typingLoopTimeout := some s.nextId
                 timers := (s.nextId, 100 + r s.rIdx * 150)
                   :: s.timers.filter (fun p => p.1 != id)
                 rIdx := s.rIdx + 1
                 nextId := s.nextId + 1 } := by
  simp [fireTimer, h, he]

lemma fireTimer_mem_disabled (r : Nat → ℚ) (s : AMState) (id : Nat)
    (h : s.timers.any (fun p => p.1 == id) = true) (he : s.enabled = false) :
    fireTimer r s id
      = { s with typingLoopTimeout := none
                 timers := s.timers.filter (fun p => p.1 != id) } := by
  simp [fireTimer, h, he]

lemma applyFires_nil_timers (r : Nat → ℚ) (fs : List Nat) :
    ∀ s : AMState, s.timers = [] → applyFires r fs s = s := by
  induction fs with
  | nil => intro s _; rfl
  | cons f fs ih =>
    intro s h
    show applyFires r fs (fireTimer r s f) = s
    rw [fireTimer_nil r s f h]
    exact ih s h

/-- Claim C4 counterexample: from the initial state, `start` twice then
`stop` leaves an orphaned pending timer (only the second `start`'s handle
was stored and cancelled); the host firing it invokes the choreographer
once even though `stop()` was called before any scheduled firing, so the
firing count after `stop()` is 1, not 0. -/
theorem stop_orphan_firing_cex :
    (stopTypingLoop (startSyntheticTypingLoop
        (startSyntheticTypingLoop sInit))).map
        (fun s => (applyFires (fun _ => 0) [0] s).firings)
      = Except.ok 1 := by
  rfl

/-- Claim C4 (amended): provided every pending host timer is the one
tracked by the stored handle (the single-chain discipline, which holds
whenever `start` is only invoked with no timer pending), `stopTypingLoop()`
called before the next scheduled firing yields zero further choreographer
invocations under any subsequent firing schedule, and `start` immediately
followed by `stop` from a quiescent state yields zero firings total. -/
theorem stop_prevents_firings (r : Nat → ℚ) (s : AMState)
    (hinv : loopInv s) :
    (∀ s', stopTypingLoop s = Except.ok s' →
        ∀ fs, (applyFires r fs s').firings = s.firings)
    ∧ (s.timers = [] →
        ∀ s'', stopTypingLoop (startSyntheticTypingLoop s) = Except.ok s'' →
          ∀ fs, (applyFires r fs s'').firings = s.firings) := by
  constructor
  · intro s' hs' fs
    rw [applyFires_nil_timers r fs s' (stop_timers_nil s s' hinv hs'),
      stop_firings s s' hs']
  · intro h0 s'' hs'' fs
    have hinv2 : loopInv (startSyntheticTypingLoop s) :=
      Or.inr ⟨s.nextId, 500, rfl, by simp [startSyntheticTypingLoop, h0]⟩
    rw [applyFires_nil_timers r fs s''
        (stop_timers_nil (startSyntheticTypingLoop s) s'' hinv2 hs''),
      stop_firings (startSyntheticTypingLoop s) s'' hs'']
    rfl

/-- Witness for the amended C4: stopping a freshly started loop, then
attempting to fire timers 0 and 1, leaves the firing count at 0. -/
theorem stop_prevents_firings_witness :
    (applyFires (fun _ => 0) [0, 1] { sInit with nextId := 1 }).firings
      = (startSyntheticTypingLoop sInit).firings :=
  (stop_prevents_firings (fun _ => 0) (startSyntheticTypingLoop sInit)
      (Or.inr ⟨0, 500, rfl, rfl⟩)).1
    { sInit with nextId := 1 } (by rw [stopTypingLoop_eq]; rfl) [0, 1]

/-- Claim C5 counterexample: the sequence `start`, `start` (both are legal
calls on an enabled, initialized manager) leaves two pending host timers,
violating the at-most-one-pending-timer invariant as stated for every
operation sequence. -/
theorem double_start_two_timers_cex :
    (startSyntheticTypingLoop (startSyntheticTypingLoop sInit)).timers.length
      = 2 := by
  decide

/-- Claim C5 (amended): under the single-chain discipline — `start` only
invoked when no timer is pending — at most one pending timer exists at any
time, the discipline is preserved by `start`, `stopTypingLoop` and host
firings, and a firing that finds the engine disabled neither invokes the
choreographer nor schedules a new timer. -/
theorem single_pending_timer (r : Nat → ℚ) (s : AMState)
    (hinv : loopInv s) :
    s.timers.length ≤ 1
    ∧ (s.timers = [] → loopInv (startSyntheticTypingLoop s))
    ∧ (∀ s', stopTypingLoop s = Except.ok s' → loopInv s')
    ∧ (∀ id, loopInv (fireTimer r s id))
    ∧ (s.enabled = false → ∀ id,
        (fireTimer r s id).firings = s.firings
        ∧ ∀ t ∈ (fireTimer r s id).timers, t ∈ s.timers) := by
  refine ⟨?_, ?_, ?_, ?_, ?_⟩
  · rcases hinv with h0 | ⟨id₀, d₀, _, ht⟩
    · simp [h0]
    · simp [ht]
  · intro h0
    exact Or.inr ⟨s.nextId, 500, rfl, by simp [startSyntheticTypingLoop, h0]⟩
  · intro s' hs'
    exact Or.inl (stop_timers_nil s s' hinv hs')
  · intro id
    cases hany : s.timers.any (fun p => p.1 == id) with
    | false => rw [fireTimer_not_mem r s id hany]; exact hinv
    | true =>
      rcases hinv with h0 | ⟨id₀, d₀, hh, ht⟩
      · rw [fireTimer_nil r s id h0]; exact Or.inl h0
      · have hid : id₀ = id := by
          rw [ht] at hany
          simpa using hany
        subst hid
        cases he : s.enabled with
        | true =>
          rw [fireTimer_mem_enabled r s id₀ hany he]
          exact Or.inr ⟨s.nextId, 100 + r s.rIdx * 150, rfl, by simp [ht]⟩
        | false =>
          rw [fireTimer_mem_disabled r s id₀ hany he]
          exact Or.inl (by simp [ht])
  · intro he id
    cases hany : s.timers.any (fun p => p.1 == id) with
    | false => rw [fireTimer_not_mem r s id hany]; exact ⟨rfl, fun t ht => ht⟩
    | true =>
      rw [fireTimer_mem_disabled r s id hany he]
      exact ⟨rfl, fun t ht => List.mem_of_mem_filter ht⟩

/-- Witness for the amended C5 at the quiescent initial state. -/
theorem single_pending_timer_witness : sInit.timers.length ≤ 1 :=
  (single_pending_timer (fun _ => 0) sInit (Or.inl rfl)).1

/-- Claim C8: starting the synthetic loop registers the first firing with
the fixed 500 ms warm-up delay and stores its handle; every firing taken
while the engine is enabled invokes the choreographer once and registers
the next firing with delay `100 + u · 150` ms for a fresh uniform draw `u`
(so the delay lies in [100, 250)), advancing the delay-draw cursor by one
per cycle. -/
theorem loop_delay_schedule (r : Nat → ℚ) (s : AMState)
    (hr : ∀ n, 0 ≤ r n ∧ r n < 1) :
    ((startSyntheticTypingLoop s).typingLoopTimeout = some s.nextId
      ∧ (s.nextId, 500) ∈ (startSyntheticTypingLoop s).timers)
    ∧ ∀ id d, s.enabled = true → (id, d) ∈ s.timers →
        (fireTimer r s id).firings = s.firings + 1
        ∧ (fireTimer r s id).typingLoopTimeout = some s.nextId
        ∧ (s.nextId, 100 + r s.rIdx * 150) ∈ (fireTimer r s id).timers
        ∧ 100 ≤ 100 + r s.rIdx * 150
        ∧ 100 + r s.rIdx * 150 < 250
        ∧ (fireTimer r s id).rIdx = s.rIdx + 1 := by
  refine ⟨⟨rfl, by simp [startSyntheticTypingLoop]⟩, ?_⟩
  intro id d he hmem
  have hany : s.timers.any (fun p => p.1 == id) = true :=
    List.any_eq_true.mpr ⟨(id, d), hmem, by simp⟩
  rw [fireTimer_mem_enabled r s id hany he]
  refine ⟨rfl, rfl, by simp, ?_, ?_, rfl⟩
  · nlinarith [(hr s.rIdx).1]
  · nlinarith [(hr s.rIdx).2]

/-- Witness for C8: fire the freshly scheduled timer of a started loop with
the constant-1/2 random stream; the rescheduled delay is 175 ms. -/
theorem loop_delay_schedule_witness :
    (fireTimer (fun _ => (1 : ℚ)/2) (startSyntheticTypingLoop sInit)
          0).firings
        = (startSyntheticTypingLoop sInit).firings + 1
    ∧ (fireTimer (fun _ => (1 : ℚ)/2) (startSyntheticTypingLoop sInit)
          0).typingLoopTimeout
        = some (startSyntheticTypingLoop sInit).nextId
    ∧ ((startSyntheticTypingLoop sInit).nextId, 100 + (1 : ℚ)/2 * 150)
        ∈ (fireTimer (fun _ => (1 : ℚ)/2) (startSyntheticTypingLoop sInit)
            0).timers
    ∧ 100 ≤ 100 + (1 : ℚ)/2 * 150
    ∧ 100 + (1 : ℚ)/2 * 150 < 250
    ∧ (fireTimer (fun _ => (1 : ℚ)/2) (startSyntheticTypingLoop sInit)
          0).rIdx
        = (startSyntheticTypingLoop sInit).rIdx + 1 :=
  (loop_delay_schedule (fun _ => (1 : ℚ)/2) (startSyntheticTypingLoop sInit)
      (fun _ => by norm_num)).2 0 500 rfl
    (by simp [startSyntheticTypingLoop, sInit])

/-- Claim C6: on an enabled, initialized engine, `playKeyPress()` plays the
loaded sample through a one-shot voice with playback rate
`0.95 + u · 0.1` — inside [0.95, 1.05), hence inside the documented rough
interval [0.95, 1.10] — at the fixed configured volume and constructs no
synthetic voice when the sample buffer is present; when the buffer is
absent it delegates to the synthetic three-event choreography. -/
theorem keypress_sample_selection (r : Nat → ℚ) (s : AMState) (now : ℚ)
    (he : s.enabled = true) (hini : s.initialized = true)
    (hr0 : 0 ≤ r 0) (hr1 : r 0 < 1) :
    (s.keyPressBuffer.isSome = true →
        (playKeyPress r s now).2
            = KeyPressAction.sample (0.95 + r 0 * 0.1) s.keyPressVolume
        ∧ 0.95 ≤ 0.95 + r 0 * 0.1 ∧ 0.95 + r 0 * 0.1 < 1.05
        ∧ 0.95 + r 0 * 0.1 ≤ 1.10
        ∧ ∀ vs, (playKeyPress r s now).2 ≠ KeyPressAction.synthetic vs)
    ∧ (s.keyPressBuffer = none →
        (playKeyPress r s now).2
            = KeyPressAction.synthetic (playModalKeypress r s now)) := by
  constructor
  · intro hb
    obtain ⟨b, hbb⟩ := Option.isSome_iff_exists.mp hb
    have hpk : (playKeyPress r s now).2
        = KeyPressAction.sample (0.95 + r 0 * 0.1) s.keyPressVolume := by
      simp [playKeyPress, he, hini, hbb, playBuffer]
    refine ⟨hpk, by nlinarith, by nlinarith, by nlinarith, ?_⟩
    intro vs h
    rw [hpk] at h
    exact KeyPressAction.noConfusion h
  · intro hb
    simp [playKeyPress, he, hini, hb]

/-- Witness for C6 on a state with the sample buffer present and the
constant-1/2 random stream. -/
theorem keypress_sample_selection_witness :
    (playKeyPress (fun _ => (1 : ℚ)/2)
          { sInit with keyPressBuffer := some () } 0).2
      = KeyPressAction.sample (0.95 + (1 : ℚ)/2 * 0.1)
          { sInit with keyPressBuffer := some () }.keyPressVolume :=
  ((keypress_sample_selection (fun _ => (1 : ℚ)/2)
        { sInit with keyPressBuffer := some () } 0 rfl rfl (by norm_num)
        (by norm_num)).1 rfl).1

lemma dispose_ok (s : AMState) : ∃ s2, dispose s = Except.ok s2 := by
  rw [dispose, stopTypingLoop_eq]
  cases hctx : s.context <;> simp [hctx]

/-- Claim C9: redundant lifecycle operations are absorbed as no-ops and
never raise: `stopTypingLoop()` returns ok on every state — including when
the loop is already stopped, or when the retained source voice has already
ended, where the underlying `source.stop()` primitive does raise and the
try/catch absorbs it — a second `stopTypingLoop()` returns the same state
unchanged, `dispose()` never raises, and `dispose()` after the loop is
stopped succeeds. -/
theorem redundant_ops_noop : ∀ s : AMState,
    (∃ s1, stopTypingLoop s = Except.ok s1
       ∧ stopTypingLoop s1 = Except.ok s1
       ∧ ∃ s2, dispose s1 = Except.ok s2)
    ∧ (∃ s3, dispose s = Except.ok s3)
    ∧ sourceStop { stopped := true } = Except.error () := by
  intro s
  refine ⟨⟨_, stopTypingLoop_eq s, ?_, dispose_ok _⟩, dispose_ok s, rfl⟩
  rw [stopTypingLoop_eq]

/-- Claim C10: while the engine is disabled or not yet initialized,
`playKeyPress()` and `startTypingLoop()` return at the guard: no voice or
node is constructed, no timer is registered, and the state is returned
unchanged. -/
theorem disabled_guard_noop (r : Nat → ℚ) (s : AMState) (now : ℚ)
    (h : s.enabled = false ∨ s.initialized = false) :
    playKeyPress r s now = (s, KeyPressAction.noAction)
    ∧ startTypingLoop s = (s, LoopStartEffect.noEffect) := by
  rcases h with h | h <;>
    exact ⟨by simp [playKeyPress, h], by simp [startTypingLoop, h]⟩

/-- Witness for C10 on the initial state with sound disabled. -/
theorem disabled_guard_noop_witness :
    playKeyPress (fun _ => 0) { sInit with enabled := false } 0
        = ({ sInit with enabled := false }, KeyPressAction.noAction)
    ∧ startTypingLoop { sInit with enabled := false }
        = ({ sInit with enabled := false }, LoopStartEffect.noEffect) :=
  disabled_guard_noop (fun _ => 0) { sInit with enabled := false } 0
    (Or.inl rfl)

end TypoAudio
